import Mathlib

/-!
# truffle.js of uFragments: the exported configuration object

A shallow embedding of `truffle.js`.  The file is one module body: three
`require` calls, one destructuring, and one object literal holding two arrow
functions.  The embedding keeps

* the values the module handles (`Json` for what `JSON.parse` returns,
  `JSValue` for what the module builds),
* the completion of every step (`Except JSError`: normal or thrown),
* the part of the process the claims speak about (`Realm`: the cached exports,
  the log of `require` calls, the log of constructor calls).
-/

namespace Truffle

/-! ## Values -/

/-- A JavaScript Number (an IEEE-754 double).  A finite double other than −0 is
carried as the rational number it denotes. -/
inductive JSNumber where
  | finite (q : ℚ)
  | negZero
  | infinity (negative : Bool)
  | nan

/-- A value produced by `JSON.parse`, which is what `require` returns for a
`.json` file. -/
inductive Json where
  | null
  | bool (b : Bool)
  | num (n : JSNumber)
  | str (s : String)
  | arr (items : List Json)
  | obj (props : List (String × Json))

/-- A value thrown by a step of the program. -/
inductive JSError where
  /-- A TypeError raised by the language itself. -/
  | typeError
  /-- Anything thrown by code outside this file (module loader, wallet library). -/
  | host (name message : String)

/-- The two arrow functions written in truffle.js. -/
inductive ArrowFn where
  | rink_e_by_provider
  | mainnet_provider

/-- A value the module handles.  `json` holds a parsed value by reference;
`object` is an ordinary object created by an object literal (`frozen` is its
integrity level: `true` only after `Object.freeze`); `arrow` is a closure of
one of the two arrow functions together with the module bindings it closes
over (`none` for a binding whose value is `undefined`); `hostFn` is a
constructor function defined outside this file, named by a handle. -/
inductive JSValue where
  | undefined
  | json (j : Json)
  | object (frozen : Bool) (props : List (String × JSValue))
  | arrow (code : ArrowFn) (HDWalletProvider : JSValue) (mnemonic projectId : Option Json)
  | hostFn (id : Nat)

/-- A binding that is either `undefined` or a parsed value, as a value. -/
def JSValue.ofBinding : Option Json → JSValue
  | none => .undefined
  | some j => .json j

/-- First entry of an association list under a key. -/
def lookup {α : Type} (key : String) : List (String × α) → Option α
  | [] => none
  | (k, v) :: rest => if k = key then some v else lookup key rest

/-! ## Numbers written in the source -/

/-- Binary digits of `n`, counted by halving at most `fuel` times. -/
def bitLengthAux : Nat → Nat → Nat
  | 0, _ => 0
  | fuel + 1, n => if n = 0 then 0 else bitLengthAux fuel (n / 2) + 1

/-- Number of binary digits of `n` (0 for 0); `n` halvings always suffice. -/
def bitLength (n : Nat) : Nat := bitLengthAux n n

/-- Nearest double to a natural number, ties to even; values from 2^1024 − 2^970
on round to +Infinity. -/
def roundToDouble (n : Nat) : JSNumber :=
  let bits := bitLength n
  if bits ≤ 53 then .finite (n : ℚ)
  else
    let shift := bits - 53
    let m := n / 2 ^ shift
    let r := n % 2 ^ shift
    let half := 2 ^ (shift - 1)
    let m1 := if half < r ∨ (r = half ∧ m % 2 = 1) then m + 1 else m
    if 2 ^ 1024 ≤ m1 * 2 ^ shift then .infinity false
    else .finite ((m1 * 2 ^ shift : Nat) : ℚ)

/-- Mathematical value of the decimal literal `digits e exponent`
(for example `140e9`, or `4` as `4e0`). -/
def literalMV (digits exponent : Nat) : Nat := digits * 10 ^ exponent

/-- The Number a decimal literal evaluates to: its mathematical value rounded
to a double. -/
def numericLiteral (digits exponent : Nat) : JSNumber :=
  roundToDouble (literalMV digits exponent)

/-! ## The process state and the completion monad -/

/-- One `new F(...args)` of a function defined outside this file. -/
structure ConstructCall where
  callee : Nat
  args : List JSValue

/-- What the claims observe of the running process. -/
structure Realm where
  /-- The module cache entry of truffle.js: `none` until a load has completed
  normally, then the exported object. -/
  cache : Option JSValue
  /-- Specifiers passed to `require` by truffle.js, oldest first. -/
  required : List String
  /-- Constructor calls made so far, oldest first. -/
  constructions : List ConstructCall

/-- A step of the program: from a realm to a completion (a value, or a thrown
error) and the realm afterwards. -/
def JS (α : Type) : Type := Realm → Except JSError α × Realm

/-- Normal completion. -/
def JS.pure {α : Type} (a : α) : JS α := fun r => (.ok a, r)

/-- Sequencing: a thrown error ends the computation. -/
def JS.bind {α β : Type} (m : JS α) (f : α → JS β) : JS β := fun r =>
  match m r with
  | (.ok a, r1) => f a r1
  | (.error e, r1) => (.error e, r1)

instance : Monad JS where
  pure := JS.pure
  bind := JS.bind

/-- A step with no effect on the realm. -/
def JS.lift {α : Type} (x : Except JSError α) : JS α := fun r => (x, r)

/-- Everything outside this file. -/
structure Host where
  /-- Number::toString of the engine. -/
  numberToString : JSNumber → String
  /-- `new F(...args)` for the function with handle `F`; the outcome may depend
  on the constructor calls made before. -/
  construct : Nat → List JSValue → List ConstructCall → Except JSError JSValue
  /-- `F(...args)` for the function with handle `F`. -/
  call : Nat → List JSValue → Except JSError JSValue

/-- What the module loader returns for each of the three specifiers. -/
structure ModuleEnv where
  /-- Outcome of require('frg-ethereum-runners/config/network_config.json'). -/
  network_config : Except JSError Json
  /-- Outcome of require('./secrets.json'). -/
  secrets : Except JSError Json
  /-- Outcome of require('@truffle/hdwallet-provider'). -/
  hdwallet_provider : Except JSError JSValue

/-! ## Language operations used by truffle.js -/

/-- Evaluation of `require(spec)`: the call is recorded and completes with what the
loader returns. -/
def require {α : Type} (spec : String) (outcome : Except JSError α) : JS α := fun r =>
  (outcome, { r with required := r.required ++ [spec] })

/-- Property read `j.key` on a parsed value, for the property names truffle.js
reads (none of them is defined by a built-in prototype, so a value without
such an own property yields `undefined`).  Reading a property of `null` throws
a TypeError. -/
def Json.get (j : Json) (key : String) : Except JSError (Option Json) :=
  match j with
  | .null => .error .typeError
  | .obj props => .ok (lookup key props)
  | _ => .ok none

/-- Property read `v.key`, under the same restriction on names as `Json.get`. -/
def JSValue.get (v : JSValue) (key : String) : Except JSError JSValue :=
  match v with
  | .undefined => .error .typeError
  | .json j => (Json.get j key).map JSValue.ofBinding
  | .object _ props => .ok ((lookup key props).getD .undefined)
  | _ => .ok .undefined

/-- An object literal creates a fresh ordinary object that is not frozen. -/
def objectLiteral (props : List (String × JSValue)) : JSValue := .object false props

/-- The object after the assignment `o[key] = v` has been attempted: an own
property of an unfrozen object is overwritten or added; a frozen object is
left as it is.  Values that are not objects built by this file are returned
as they are. -/
def JSValue.assign (o : JSValue) (key : String) (v : JSValue) : JSValue :=
  match o with
  | .object false props =>
      if (lookup key props).isSome then
        .object false (props.map fun kv => if kv.1 = key then (kv.1, v) else kv)
      else .object false (props ++ [(key, v)])
  | other => other

mutual
/-- ToString of a parsed value.  An object with an own `toString` property (never
callable in parsed data) has no primitive value and throws a TypeError; any
other object gives `[object Object]`; an array joins its elements. -/
def Json.toJSString (numberToString : JSNumber → String) : Json → Except JSError String
  | .null => .ok "null"
  | .bool true => .ok "true"
  | .bool false => .ok "false"
  | .num n => .ok (numberToString n)
  | .str s => .ok s
  | .arr items => Json.join numberToString items
  | .obj props => if (lookup "toString" props).isSome then .error .typeError
                  else .ok "[object Object]"
/-- Array.prototype.join with the default separator: `null` elements give the
empty string. -/
def Json.join (numberToString : JSNumber → String) : List Json → Except JSError String
  | [] => .ok ""
  | .null :: [] => .ok ""
  | x :: [] => Json.toJSString numberToString x
  | .null :: y :: rest =>
      (Json.join numberToString (y :: rest)).map fun b => "," ++ b
  | x :: y :: rest =>
      match Json.toJSString numberToString x with
      | .error e => .error e
      | .ok a => (Json.join numberToString (y :: rest)).map fun b => a ++ "," ++ b
end

/-- ToString of a module binding, as a template literal applies it. -/
def bindingToString (host : Host) : Option Json → Except JSError String
  | none => .ok "undefined"
  | some j => Json.toJSString host.numberToString j

/-- Evaluation of `new F(...args)`: a TypeError when `F` is not a constructor (only functions
defined outside this file are; arrow functions are not); otherwise the call is
recorded and completes as the constructor does. -/
def jsNew (host : Host) (F : JSValue) (args : List JSValue) : JS JSValue := fun r =>
  match F with
  | .hostFn id =>
      (host.construct id args r.constructions,
       { r with constructions := r.constructions ++ [⟨id, args⟩] })
  | _ => (.error .typeError, r)

/-! ## truffle.js -/

/-- Body of the arrow function under `networks.rink_e_by.provider`. -/
def rink_e_by_provider (host : Host) (HDWalletProvider : JSValue)
    (mnemonic projectId : Option Json) : JS JSValue := do
  let id ← JS.lift (bindingToString host projectId)
  jsNew host HDWalletProvider
    [JSValue.ofBinding mnemonic, .json (.str ("https://rinkeby.infura.io/v3/" ++ id))]

/-- Body of the arrow function under `networks.mainnet.provider`. -/
def mainnet_provider (host : Host) (HDWalletProvider : JSValue)
    (mnemonic projectId : Option Json) : JS JSValue := do
  let id ← JS.lift (bindingToString host projectId)
  jsNew host HDWalletProvider
    [JSValue.ofBinding mnemonic, .json (.str ("https://mainnet.infura.io/v3/" ++ id))]

/-- The module body of truffle.js; completes with the value assigned to
`module.exports`. -/
def truffle_js (env : ModuleEnv) : JS JSValue := do
  let connectionConfig ←
    require "frg-ethereum-runners/config/network_config.json" env.network_config
  let secrets ← require "./secrets.json" env.secrets
  let projectId ← JS.lift (secrets.get "projectId")
  let mnemonic ← JS.lift (secrets.get "mnemonic")
  let HDWalletProvider ← require "@truffle/hdwallet-provider" env.hdwallet_provider
  let ganacheUnitTest ← JS.lift (connectionConfig.get "ganacheUnitTest")
  let gethUnitTest ← JS.lift (connectionConfig.get "gethUnitTest")
  let testrpcCoverage ← JS.lift (connectionConfig.get "testrpcCoverage")
  pure (objectLiteral [
    ("networks", objectLiteral [
      ("ganacheUnitTest", JSValue.ofBinding ganacheUnitTest),
      ("gethUnitTest", JSValue.ofBinding gethUnitTest),
      ("testrpcCoverage", JSValue.ofBinding testrpcCoverage),
      ("rink_e_by", objectLiteral [
        ("provider", .arrow .rink_e_by_provider HDWalletProvider mnemonic projectId),
        ("networkId", .json (.num (numericLiteral 4 0))),
        ("gasPrice", .json (.num (numericLiteral 10 9)))]),
      ("mainnet", objectLiteral [
        ("provider", .arrow .mainnet_provider HDWalletProvider mnemonic projectId),
        ("networkId", .json (.num (numericLiteral 1 0))),
        ("gasPrice", .json (.num (numericLiteral 140 9)))])]),
    ("compilers", objectLiteral [
      ("solc", objectLiteral [
        ("version", .json (.str "0.6.6")),
        ("settings", objectLiteral [
          ("optimizer", objectLiteral [
            ("enabled", .json (.bool false))])])])]),
    ("mocha", objectLiteral [
      ("enableTimeouts", .json (.bool false))])])

/-- First load of truffle.js in a process: the module body runs, and on normal
completion the exported object is cached and returned; when the body throws,
nothing is cached and the error reaches the caller. -/
def load (env : ModuleEnv) : JS JSValue := fun r =>
  match truffle_js env r with
  | (.ok config, r1) => (.ok config, { r1 with cache := some config })
  | (.error e, r1) => (.error e, r1)

/-- Evaluation of `f()`: an arrow function of this file runs its body; a function defined
outside completes as the host says; anything else is not callable. -/
def callFunction (host : Host) (f : JSValue) : JS JSValue :=
  match f with
  | .arrow .rink_e_by_provider W m p => rink_e_by_provider host W m p
  | .arrow .mainnet_provider W m p => mainnet_provider host W m p
  | .hostFn id => JS.lift (host.call id [])
  | _ => JS.lift (.error .typeError)

/-- Read of a property path, left to right. -/
def getPath (v : JSValue) : List String → Except JSError JSValue
  | [] => .ok v
  | key :: rest =>
      match v.get key with
      | .ok w => getPath w rest
      | .error e => .error e

/-- The two remote networks declared by truffle.js. -/
inductive Remote where
  | rink_e_by
  | mainnet

/-- Key of a remote network in `networks`. -/
def Remote.key : Remote → String
  | .rink_e_by => "rink_e_by"
  | .mainnet => "mainnet"

/-- Host label of the endpoint of a remote network. -/
def Remote.url (net : Remote) (projectId : String) : String :=
  match net with
  | .rink_e_by => "https://rinkeby.infura.io/v3/" ++ projectId
  | .mainnet => "https://mainnet.infura.io/v3/" ++ projectId

/-- A consumer evaluates `config.networks.<net>.provider()` on a configuration
object it holds. -/
def invokeProvider (host : Host) (config : JSValue) (net : Remote) : JS JSValue := fun r =>
  match getPath config ["networks", net.key, "provider"] with
  | .ok f => callFunction host f r
  | .error e => (.error e, r)

/-- A consumer evaluates `require('truffle.js').networks.<net>.provider()` once for
each entry of `nets`, in order, on the cached exports; what each call returns
or throws is dropped. -/
def invokeAll (host : Host) : List Remote → Realm → Realm
  | [], r => r
  | net :: rest, r =>
      match r.cache with
      | some config => invokeAll host rest (invokeProvider host config net r).2
      | none => invokeAll host rest r

/-! ## Closed forms used by the proofs -/

/-- The specifiers truffle.js passes to `require`, in program order. -/
def specifiers : List String :=
  ["frg-ethereum-runners/config/network_config.json", "./secrets.json",
   "@truffle/hdwallet-provider"]

/-- Own property of a parsed value (`none` when it has none under the key). -/
def Json.own (j : Json) (key : String) : Option Json :=
  match j with
  | .obj props => lookup key props
  | _ => none

/-- The object literal of truffle.js once its identifiers have values: the three
reads of `connectionConfig`, the wallet module and the two secrets. -/
def configObject (ganacheUnitTest gethUnitTest testrpcCoverage : Option Json)
    (HDWalletProvider : JSValue) (mnemonic projectId : Option Json) : JSValue :=
  objectLiteral [
    ("networks", objectLiteral [
      ("ganacheUnitTest", JSValue.ofBinding ganacheUnitTest),
      ("gethUnitTest", JSValue.ofBinding gethUnitTest),
      ("testrpcCoverage", JSValue.ofBinding testrpcCoverage),
      ("rink_e_by", objectLiteral [
        ("provider", .arrow .rink_e_by_provider HDWalletProvider mnemonic projectId),
        ("networkId", .json (.num (numericLiteral 4 0))),
        ("gasPrice", .json (.num (numericLiteral 10 9)))]),
      ("mainnet", objectLiteral [
        ("provider", .arrow .mainnet_provider HDWalletProvider mnemonic projectId),
        ("networkId", .json (.num (numericLiteral 1 0))),
        ("gasPrice", .json (.num (numericLiteral 140 9)))])]),
    ("compilers", objectLiteral [
      ("solc", objectLiteral [
        ("version", .json (.str "0.6.6")),
        ("settings", objectLiteral [
          ("optimizer", objectLiteral [
            ("enabled", .json (.bool false))])])])]),
    ("mocha", objectLiteral [
      ("enableTimeouts", .json (.bool false))])]

/-- The configuration a load produces from the three module values. -/
def configOf (cc s : Json) (W : JSValue) : JSValue :=
  configObject (cc.own "ganacheUnitTest") (cc.own "gethUnitTest") (cc.own "testrpcCoverage")
    W (s.own "mnemonic") (s.own "projectId")

/-- What one invocation of a provider factory does, given the bindings it
closes over. -/
def providerStep (host : Host) (W : JSValue) (m p : Option Json) (net : Remote) :
    JS JSValue := fun r =>
  match bindingToString host p with
  | .ok id => jsNew host W [JSValue.ofBinding m, .json (.str (net.url id))] r
  | .error e => (.error e, r)

/-! ## Concrete inputs -/

/-- A parameters source with the three pass-through descriptors. -/
def sampleParams : Json :=
  .obj [("ganacheUnitTest", .obj [("ref", .str "ganache")]),
        ("gethUnitTest", .obj [("ref", .str "geth")]),
        ("testrpcCoverage", .obj [("ref", .str "testrpc")])]

/-- A secrets source with both secrets. -/
def sampleSecrets : Json :=
  .obj [("projectId", .str "abc123"), ("mnemonic", .str "candy maple cake")]

/-- A secrets source that lacks `mnemonic`. -/
def secretsWithoutMnemonic : Json := .obj [("projectId", .str "abc123")]

/-- A loader under which all three modules load; the wallet module exports the
function with handle 7. -/
def sampleEnv : ModuleEnv :=
  { network_config := .ok sampleParams, secrets := .ok sampleSecrets,
    hdwallet_provider := .ok (.hostFn 7) }

/-- A host whose constructor returns an object recording how many constructions
preceded it. -/
def sampleHost : Host :=
  { numberToString := fun _ => "0",
    construct := fun _ _ log =>
      .ok (.object false [("serial", .json (.str (toString log.length)))]),
    call := fun _ _ => .error .typeError }

/-- A secrets source whose projectId is an object with one own property, named
`toString` and holding `null`; the mnemonic is a string. -/
def secretsWithObjectProjectId : Json :=
  .obj [("projectId", .obj [("toString", .null)]), ("mnemonic", .str "candy maple cake")]

/-- A secrets source with two malformed secrets: the projectId is an object with
an own `toString` property holding a string, the mnemonic is `null`. -/
def malformedSecrets : Json :=
  .obj [("projectId", .obj [("toString", .str "id")]), ("mnemonic", .null)]

/-- The realm of a process that has not loaded truffle.js yet. -/
def freshRealm : Realm := { cache := none, required := [], constructions := [] }

/-- The error of a module that cannot be found. -/
def moduleNotFound : JSError := .host "Error" "MODULE_NOT_FOUND"

/-! ## Lemmas about the embedding -/

@[simp] theorem JS.bind_eq {α β : Type} (m : JS α) (f : α → JS β) :
    (m >>= f) = JS.bind m f := rfl

@[simp] theorem JS.pure_eq {α : Type} (a : α) : (Pure.pure a : JS α) = JS.pure a := rfl

theorem Json.get_of_ne_null (j : Json) (key : String) (h : j ≠ .null) :
    j.get key = .ok (j.own key) := by
  cases j <;> simp [Json.get, Json.own] at h ⊢

theorem Json.get_ok_iff (j : Json) (key : String) (v : Option Json) :
    j.get key = .ok v ↔ j ≠ .null ∧ v = j.own key := by
  cases j <;> simp [Json.get, Json.own, eq_comm]

theorem truffle_js_ok (env : ModuleEnv) (cc s : Json) (W : JSValue) (r : Realm)
    (hc : env.network_config = .ok cc) (hs : env.secrets = .ok s)
    (hw : env.hdwallet_provider = .ok W) (hcn : cc ≠ .null) (hsn : s ≠ .null) :
    truffle_js env r =
      (.ok (configOf cc s W), { r with required := r.required ++ specifiers }) := by
  simp [truffle_js, JS.bind, require, hc, hs, hw, JS.lift, JS.pure,
    Json.get_of_ne_null _ _ hcn, Json.get_of_ne_null _ _ hsn, configOf, configObject, specifiers]

theorem truffle_js_inv (env : ModuleEnv) (r r1 : Realm) (cfg : JSValue)
    (h : truffle_js env r = (.ok cfg, r1)) :
    ∃ cc s W, env.network_config = .ok cc ∧ env.secrets = .ok s ∧
      env.hdwallet_provider = .ok W ∧ cc ≠ .null ∧ s ≠ .null ∧ cfg = configOf cc s W ∧
      r1 = { r with required := r.required ++ specifiers } := by
  rcases env with ⟨c, s, w⟩
  rcases c with e | cc
  · simp [truffle_js, JS.bind, require] at h
  rcases s with e | s
  · simp [truffle_js, JS.bind, require] at h
  by_cases hsn : s = .null
  · subst hsn
    simp [truffle_js, JS.bind, require, JS.lift, Json.get] at h
  rcases w with e | W
  · simp [truffle_js, JS.bind, require, JS.lift, Json.get_of_ne_null _ _ hsn] at h
  by_cases hcn : cc = .null
  · subst hcn
    simp only [truffle_js, JS.bind_eq, JS.bind, require, JS.lift,
      Json.get_of_ne_null _ _ hsn] at h
    simp [Json.get] at h
  refine ⟨cc, s, W, rfl, rfl, rfl, hcn, hsn, ?_⟩
  rw [truffle_js_ok _ cc s W r rfl rfl rfl hcn hsn] at h
  simp only [Prod.mk.injEq, Except.ok.injEq] at h
  exact ⟨h.1.symm, h.2.symm⟩

theorem load_ok (env : ModuleEnv) (cc s : Json) (W : JSValue) (r : Realm)
    (hc : env.network_config = .ok cc) (hs : env.secrets = .ok s)
    (hw : env.hdwallet_provider = .ok W) (hcn : cc ≠ .null) (hsn : s ≠ .null) :
    load env r =
      (.ok (configOf cc s W),
       { cache := some (configOf cc s W), required := r.required ++ specifiers,
         constructions := r.constructions }) := by
  simp [load, truffle_js_ok env cc s W r hc hs hw hcn hsn]

theorem load_inv (env : ModuleEnv) (r r1 : Realm) (cfg : JSValue)
    (h : load env r = (.ok cfg, r1)) :
    ∃ cc s W, env.network_config = .ok cc ∧ env.secrets = .ok s ∧
      env.hdwallet_provider = .ok W ∧ cc ≠ .null ∧ s ≠ .null ∧ cfg = configOf cc s W ∧
      r1 = { cache := some cfg, required := r.required ++ specifiers,
             constructions := r.constructions } := by
  unfold load at h
  rcases hb : truffle_js env r with ⟨res, r2⟩
  rw [hb] at h
  rcases res with e | v
  · simp at h
  · obtain ⟨cc, s, W, hc, hs, hw, hcn, hsn, hv, hr⟩ := truffle_js_inv env r r2 v hb
    simp only [Prod.mk.injEq, Except.ok.injEq] at h
    refine ⟨cc, s, W, hc, hs, hw, hcn, hsn, ?_, ?_⟩
    · rw [← h.1, hv]
    · rw [← h.2, hr, h.1]

theorem load_constructions (env : ModuleEnv) (r : Realm) :
    (load env r).2.constructions = r.constructions := by
  rcases env with ⟨c, s, w⟩
  rcases c with e | cc
  · simp [load, truffle_js, JS.bind, require]
  rcases s with e | s
  · simp [load, truffle_js, JS.bind, require]
  by_cases hsn : s = .null
  · subst hsn
    simp [load, truffle_js, JS.bind, require, JS.lift, Json.get]
  rcases w with e | W
  · simp [load, truffle_js, JS.bind, require, JS.lift, Json.get_of_ne_null _ _ hsn]
  by_cases hcn : cc = .null
  · subst hcn
    simp only [load, truffle_js, JS.bind_eq, JS.bind, require, JS.lift,
      Json.get_of_ne_null _ _ hsn]
    simp [Json.get]
  · rw [load_ok _ cc s W r rfl rfl rfl hcn hsn]

theorem getPath_networks_key (g1 g2 g3 : Option Json) (W : JSValue) (m p : Option Json) :
    getPath (configObject g1 g2 g3 W m p) ["networks", "ganacheUnitTest"]
        = .ok (JSValue.ofBinding g1) ∧
    getPath (configObject g1 g2 g3 W m p) ["networks", "gethUnitTest"]
        = .ok (JSValue.ofBinding g2) ∧
    getPath (configObject g1 g2 g3 W m p) ["networks", "testrpcCoverage"]
        = .ok (JSValue.ofBinding g3) := by
  simp [getPath, JSValue.get, lookup, configObject, objectLiteral]

theorem getPath_remote (g1 g2 g3 : Option Json) (W : JSValue) (m p : Option Json) :
    getPath (configObject g1 g2 g3 W m p) ["networks", "mainnet", "provider"]
        = .ok (.arrow .mainnet_provider W m p) ∧
    getPath (configObject g1 g2 g3 W m p) ["networks", "rink_e_by", "provider"]
        = .ok (.arrow .rink_e_by_provider W m p) ∧
    getPath (configObject g1 g2 g3 W m p) ["networks", "mainnet", "networkId"]
        = .ok (.json (.num (numericLiteral 1 0))) ∧
    getPath (configObject g1 g2 g3 W m p) ["networks", "rink_e_by", "networkId"]
        = .ok (.json (.num (numericLiteral 4 0))) ∧
    getPath (configObject g1 g2 g3 W m p) ["networks", "mainnet", "gasPrice"]
        = .ok (.json (.num (numericLiteral 140 9))) ∧
    getPath (configObject g1 g2 g3 W m p) ["networks", "rink_e_by", "gasPrice"]
        = .ok (.json (.num (numericLiteral 10 9))) := by
  simp [getPath, JSValue.get, lookup, configObject, objectLiteral]

theorem getPath_options (g1 g2 g3 : Option Json) (W : JSValue) (m p : Option Json) :
    getPath (configObject g1 g2 g3 W m p) ["compilers", "solc", "version"]
        = .ok (.json (.str "0.6.6")) ∧
    getPath (configObject g1 g2 g3 W m p)
        ["compilers", "solc", "settings", "optimizer", "enabled"]
        = .ok (.json (.bool false)) ∧
    getPath (configObject g1 g2 g3 W m p) ["mocha", "enableTimeouts"]
        = .ok (.json (.bool false)) := by
  simp [getPath, JSValue.get, lookup, configObject, objectLiteral]

theorem invokeProvider_config (host : Host) (g1 g2 g3 : Option Json) (W : JSValue)
    (m p : Option Json) (net : Remote) (r : Realm) :
    invokeProvider host (configObject g1 g2 g3 W m p) net r = providerStep host W m p net r := by
  cases net <;>
    simp [invokeProvider, Remote.key, getPath, JSValue.get, lookup, configObject,
      objectLiteral, callFunction, rink_e_by_provider, mainnet_provider, providerStep,
      JS.bind, JS.lift, Remote.url] <;>
    cases bindingToString host p <;> simp

theorem numericLiteral_small (digits exponent : Nat)
    (h : bitLength (literalMV digits exponent) ≤ 53) :
    numericLiteral digits exponent = .finite (literalMV digits exponent : ℚ) := by
  simp [numericLiteral, roundToDouble, h]

theorem invokeProvider_loaded (host : Host) (env : ModuleEnv) (r r1 : Realm) (cfg : JSValue)
    (sec : Json) (W : JSValue) (hload : load env r = (.ok cfg, r1))
    (hsec : env.secrets = .ok sec) (hw : env.hdwallet_provider = .ok W)
    (net : Remote) (r2 : Realm) :
    invokeProvider host cfg net r2 =
      providerStep host W (sec.own "mnemonic") (sec.own "projectId") net r2 := by
  obtain ⟨cc, s, W1, -, hs, hw1, -, -, hcfg, -⟩ := load_inv env r r1 cfg hload
  rw [hsec] at hs
  rw [hw] at hw1
  cases hs
  cases hw1
  subst hcfg
  exact invokeProvider_config host _ _ _ W _ _ net r2

theorem providerStep_hostFn (host : Host) (id : Nat) (m p : Option Json) (s : String)
    (net : Remote) (r2 : Realm) (hp : bindingToString host p = .ok s) :
    providerStep host (.hostFn id) m p net r2 =
      (host.construct id [JSValue.ofBinding m, .json (.str (net.url s))] r2.constructions,
       { r2 with constructions := r2.constructions ++
           [⟨id, [JSValue.ofBinding m, .json (.str (net.url s))]⟩] }) := by
  simp [providerStep, hp, jsNew]

theorem numericLiteral_values :
    numericLiteral 1 0 = .finite 1 ∧ numericLiteral 4 0 = .finite 4 ∧
    numericLiteral 10 9 = .finite 10000000000 ∧
    numericLiteral 140 9 = .finite 140000000000 := by
  refine ⟨?_, ?_, ?_, ?_⟩
  · rw [numericLiteral_small 1 0 (by decide)]; norm_num [literalMV]
  · rw [numericLiteral_small 4 0 (by decide)]; norm_num [literalMV]
  · rw [numericLiteral_small 10 9 (by decide)]; norm_num [literalMV]
  · rw [numericLiteral_small 140 9 (by decide)]; norm_num [literalMV]

theorem bitLengthAux_le (fuel : Nat) : ∀ (n k : Nat), n < 2 ^ k → bitLengthAux fuel n ≤ k := by
  induction fuel with
  | zero => intro n k _; simp [bitLengthAux]
  | succ fuel ih =>
    intro n k h
    by_cases hn : n = 0
    · simp [bitLengthAux, hn]
    · cases k with
      | zero => simp at h; exact absurd h hn
      | succ k =>
        have hhalf : n / 2 < 2 ^ k := by
          rw [Nat.div_lt_iff_lt_mul (by decide)]
          rw [pow_succ] at h
          exact h
        have := ih (n / 2) k hhalf
        simp [bitLengthAux, hn]
        exact this

theorem roundToDouble_exact (n : Nat) (h : n < 2 ^ 53) : roundToDouble n = .finite (n : ℚ) := by
  have hb : bitLength n ≤ 53 := bitLengthAux_le n n 53 h
  simp [roundToDouble, hb]

theorem jsNew_frame (host : Host) (F : JSValue) (args : List JSValue) (r : Realm) :
    (jsNew host F args r).2.cache = r.cache ∧ (jsNew host F args r).2.required = r.required := by
  cases F <;> simp [jsNew]

theorem providerStep_frame (host : Host) (W : JSValue) (m p : Option Json) (net : Remote)
    (r : Realm) :
    (providerStep host W m p net r).2.cache = r.cache ∧
    (providerStep host W m p net r).2.required = r.required := by
  unfold providerStep
  cases bindingToString host p with
  | error e => simp
  | ok id => exact jsNew_frame host W _ r

theorem callFunction_arrow (host : Host) (W : JSValue) (m p : Option Json) (r : Realm) :
    callFunction host (.arrow .mainnet_provider W m p) r = providerStep host W m p .mainnet r ∧
    callFunction host (.arrow .rink_e_by_provider W m p) r
      = providerStep host W m p .rink_e_by r := by
  constructor <;>
    simp [callFunction, rink_e_by_provider, mainnet_provider, providerStep, JS.bind, JS.lift,
      Remote.url] <;>
    cases bindingToString host p <;> simp

theorem callFunction_frame (host : Host) (f : JSValue) (r : Realm) :
    (callFunction host f r).2.cache = r.cache ∧
    (callFunction host f r).2.required = r.required := by
  cases f with
  | arrow code W m p =>
    cases code
    · rw [(callFunction_arrow host W m p r).2]
      exact providerStep_frame host W m p .rink_e_by r
    · rw [(callFunction_arrow host W m p r).1]
      exact providerStep_frame host W m p .mainnet r
  | _ => simp [callFunction, JS.lift]

theorem invokeProvider_frame (host : Host) (config : JSValue) (net : Remote) (r : Realm) :
    (invokeProvider host config net r).2.cache = r.cache ∧
    (invokeProvider host config net r).2.required = r.required := by
  unfold invokeProvider
  cases getPath config ["networks", net.key, "provider"] with
  | error e => simp
  | ok f => exact callFunction_frame host f r

theorem invokeAll_frame (host : Host) (nets : List Remote) :
    ∀ r : Realm, (invokeAll host nets r).cache = r.cache ∧
      (invokeAll host nets r).required = r.required := by
  induction nets with
  | nil => intro r; simp [invokeAll]
  | cons net rest ih =>
    intro r
    cases hc : r.cache with
    | none => simp only [invokeAll, hc]; rw [← hc]; exact ih r
    | some config =>
      simp only [invokeAll, hc]
      have h1 := ih (invokeProvider host config net r).2
      have h2 := invokeProvider_frame host config net r
      exact ⟨by rw [h1.1, h2.1, hc], by rw [h1.2, h2.2]⟩

theorem invokeAll_constructions (host : Host) (cfg : JSValue) (id : Nat) (m p : Option Json)
    (url : String) (hurl : bindingToString host p = .ok url)
    (hcfg : ∀ net r, invokeProvider host cfg net r = providerStep host (.hostFn id) m p net r)
    (nets : List Remote) :
    ∀ r : Realm, r.cache = some cfg →
      (invokeAll host nets r).constructions = r.constructions ++
        nets.map fun net =>
          (⟨id, [JSValue.ofBinding m, .json (.str (net.url url))]⟩ : ConstructCall) := by
  induction nets with
  | nil => intro r _; simp [invokeAll]
  | cons net rest ih =>
    intro r hc
    simp only [invokeAll, hc]
    have hstep := (hcfg net r).trans (providerStep_hostFn host id m p url net r hurl)
    rw [hstep]
    have hnext := ih
      { cache := r.cache, required := r.required,
        constructions := r.constructions ++
          [⟨id, [JSValue.ofBinding m, .json (.str (net.url url))]⟩] } hc
    simp only [hnext, List.map_cons, List.append_assoc, List.singleton_append]

mutual
theorem Json.toJSString_error (f : JSNumber → String) :
    ∀ (j : Json) (e : JSError), Json.toJSString f j = .error e → e = .typeError
  | .null, e, h => by simp [Json.toJSString] at h
  | .bool true, e, h => by simp [Json.toJSString] at h
  | .bool false, e, h => by simp [Json.toJSString] at h
  | .num n, e, h => by simp [Json.toJSString] at h
  | .str s, e, h => by simp [Json.toJSString] at h
  | .arr items, e, h => Json.join_error f items e (by simpa [Json.toJSString] using h)
  | .obj props, e, h => by
      simp only [Json.toJSString] at h
      split at h
      · cases h; rfl
      · cases h
theorem Json.join_error (f : JSNumber → String) :
    ∀ (items : List Json) (e : JSError), Json.join f items = .error e → e = .typeError
  | [], e, h => by simp [Json.join] at h
  | [x], e, h => by
      cases x with
      | null => simp [Json.join] at h
      | _ => exact Json.toJSString_error f _ e (by simpa [Json.join] using h)
  | x :: y :: rest, e, h => by
      have ih := Json.join_error f (y :: rest)
      cases x with
      | null =>
        simp only [Json.join] at h
        cases hj : Json.join f (y :: rest) with
        | error e1 => rw [hj] at h; simp [Except.map] at h; rw [← h]; exact ih e1 hj
        | ok b => rw [hj] at h; simp [Except.map] at h
      | _ =>
        simp only [Json.join] at h
        split at h
        · cases h; exact Json.toJSString_error f _ _ (by assumption)
        · cases hj : Json.join f (y :: rest) with
          | error e1 => rw [hj] at h; simp [Except.map] at h; rw [← h]; exact ih e1 hj
          | ok b => rw [hj] at h; simp [Except.map] at h
end

theorem bindingToString_error (host : Host) (p : Option Json) (e : JSError)
    (h : bindingToString host p = .error e) : e = .typeError := by
  cases p with
  | none => simp [bindingToString] at h
  | some j => exact Json.toJSString_error host.numberToString j e h

theorem bindingToString_primitive (host : Host) :
    bindingToString host none = .ok "undefined" ∧
    bindingToString host (some .null) = .ok "null" ∧
    bindingToString host (some (.bool true)) = .ok "true" ∧
    bindingToString host (some (.bool false)) = .ok "false" ∧
    (∀ n, bindingToString host (some (.num n)) = .ok (host.numberToString n)) ∧
    ∀ s, bindingToString host (some (.str s)) = .ok s := by
  simp [bindingToString, Json.toJSString]

theorem bindingToString_object (host : Host) (props : List (String × Json))
    (h : (lookup "toString" props).isSome) :
    bindingToString host (some (.obj props)) = .error .typeError := by
  simp [bindingToString, Json.toJSString, h]

theorem providerStep_ok (host : Host) (W : JSValue) (m p : Option Json) (url : String)
    (net : Remote) (r : Realm) (hp : bindingToString host p = .ok url) :
    providerStep host W m p net r =
      jsNew host W [JSValue.ofBinding m, .json (.str (net.url url))] r := by
  simp [providerStep, hp]

theorem providerStep_error (host : Host) (W : JSValue) (m p : Option Json) (e : JSError)
    (net : Remote) (r : Realm) (hp : bindingToString host p = .error e) :
    providerStep host W m p net r = (.error e, r) := by
  simp [providerStep, hp]

theorem invokeAll_of_throwing (host : Host) (cfg : JSValue) (e : JSError)
    (hcfg : ∀ net r, invokeProvider host cfg net r = (.error e, r)) (nets : List Remote) :
    ∀ r : Realm, r.cache = some cfg → invokeAll host nets r = r := by
  induction nets with
  | nil => intro r _; simp [invokeAll]
  | cons net rest ih =>
    intro r hc
    simp only [invokeAll, hc, hcfg net r]
    exact ih r hc

theorem load_null (env : ModuleEnv) (cc sec : Json) (W : JSValue) (r : Realm)
    (hc : env.network_config = .ok cc) (hs : env.secrets = .ok sec)
    (hw : env.hdwallet_provider = .ok W) (hnull : cc = .null ∨ sec = .null) :
    (load env r).1 = .error .typeError ∧ (load env r).2.cache = r.cache := by
  by_cases hsn : sec = .null
  · subst hsn
    simp [load, truffle_js, JS.bind, require, JS.lift, Json.get, hc, hs]
  · have hcn : cc = .null := by
      rcases hnull with h | h
      · exact h
      · exact absurd h hsn
    subst hcn
    simp only [load, truffle_js, JS.bind_eq, JS.bind, require, JS.lift, hc, hs, hw,
      Json.get_of_ne_null _ _ hsn]
    simp [Json.get]

/-! ## The claims -/

/-- C1: whenever the module loads, the exported `networks.ganacheUnitTest`,
`networks.gethUnitTest` and `networks.testrpcCoverage` are the values read from
the parameters source under the same three names (`connectionConfig.<name>`),
whatever the secrets source is.  Values stand for references here: the
descriptor is the parsed value itself, not a rebuilt copy. -/
theorem passthrough_networks_verbatim (env : ModuleEnv) (r r1 : Realm) (cfg : JSValue)
    (cc : Json) (hload : load env r = (.ok cfg, r1)) (hcc : env.network_config = .ok cc) :
    ∃ ganache geth testrpc,
      (JSValue.json cc).get "ganacheUnitTest" = .ok ganache ∧
      (JSValue.json cc).get "gethUnitTest" = .ok geth ∧
      (JSValue.json cc).get "testrpcCoverage" = .ok testrpc ∧
      getPath cfg ["networks", "ganacheUnitTest"] = .ok ganache ∧
      getPath cfg ["networks", "gethUnitTest"] = .ok geth ∧
      getPath cfg ["networks", "testrpcCoverage"] = .ok testrpc := by
  obtain ⟨cc1, s, W, hc, -, -, hcn, -, hcfg, -⟩ := load_inv env r r1 cfg hload
  rw [hcc] at hc
  cases hc
  subst hcfg
  have hp := getPath_networks_key (cc.own "ganacheUnitTest") (cc.own "gethUnitTest")
    (cc.own "testrpcCoverage") W (s.own "mnemonic") (s.own "projectId")
  refine ⟨_, _, _, ?_, ?_, ?_, hp.1, hp.2.1, hp.2.2⟩ <;>
    simp [JSValue.get, Json.get_of_ne_null _ _ hcn, Except.map]

/-- The sample sources load, and the three exported descriptors are the three sample descriptors. -/
theorem passthrough_networks_verbatim_witness :
    load sampleEnv freshRealm =
      (.ok (configOf sampleParams sampleSecrets (.hostFn 7)),
       { cache := some (configOf sampleParams sampleSecrets (.hostFn 7)),
         required := specifiers, constructions := [] }) ∧
    ∃ ganache geth testrpc,
      (JSValue.json sampleParams).get "ganacheUnitTest" = .ok ganache ∧
      (JSValue.json sampleParams).get "gethUnitTest" = .ok geth ∧
      (JSValue.json sampleParams).get "testrpcCoverage" = .ok testrpc ∧
      getPath (configOf sampleParams sampleSecrets (.hostFn 7))
        ["networks", "ganacheUnitTest"] = .ok ganache ∧
      getPath (configOf sampleParams sampleSecrets (.hostFn 7))
        ["networks", "gethUnitTest"] = .ok geth ∧
      getPath (configOf sampleParams sampleSecrets (.hostFn 7))
        ["networks", "testrpcCoverage"] = .ok testrpc :=
  ⟨by rfl, passthrough_networks_verbatim sampleEnv freshRealm _ _ sampleParams (by rfl) rfl⟩

/-- C2: for every projectId string `p` and every mnemonic `m` the secrets source
supplies, when the wallet module exports a constructor, invoking
`networks.mainnet.provider()` calls that constructor exactly with
`(m, "https://mainnet.infura.io/v3/" ++ p)` and completes as the constructor
does, and `networks.rink_e_by.provider()` does the same with
`"https://rinkeby.infura.io/v3/" ++ p`; the mnemonic is the same in both and
the two URLs differ only in the host label. -/
theorem provider_constructs_with_mnemonic_and_url (host : Host) (env : ModuleEnv)
    (r r1 r2 : Realm) (cfg : JSValue) (sec : Json) (id : Nat) (p : String) (m : Option Json)
    (hload : load env r = (.ok cfg, r1)) (hsec : env.secrets = .ok sec)
    (hp : sec.get "projectId" = .ok (some (.str p))) (hm : sec.get "mnemonic" = .ok m)
    (hw : env.hdwallet_provider = .ok (.hostFn id)) :
    invokeProvider host cfg .mainnet r2 =
      (host.construct id
          [JSValue.ofBinding m, .json (.str ("https://mainnet.infura.io/v3/" ++ p))]
          r2.constructions,
       { r2 with constructions := r2.constructions ++
           [⟨id, [JSValue.ofBinding m,
                  .json (.str ("https://mainnet.infura.io/v3/" ++ p))]⟩] }) ∧
    invokeProvider host cfg .rink_e_by r2 =
      (host.construct id
          [JSValue.ofBinding m, .json (.str ("https://rinkeby.infura.io/v3/" ++ p))]
          r2.constructions,
       { r2 with constructions := r2.constructions ++
           [⟨id, [JSValue.ofBinding m,
                  .json (.str ("https://rinkeby.infura.io/v3/" ++ p))]⟩] }) ∧
    "https://mainnet.infura.io/v3/" ++ p = "https://" ++ "mainnet" ++ ".infura.io/v3/" ++ p ∧
    "https://rinkeby.infura.io/v3/" ++ p = "https://" ++ "rinkeby" ++ ".infura.io/v3/" ++ p := by
  have hp1 := ((Json.get_ok_iff _ _ _).1 hp).2
  have hm1 := ((Json.get_ok_iff _ _ _).1 hm).2
  have hstr : bindingToString host (sec.own "projectId") = .ok p := by
    rw [← hp1]; simp [bindingToString, Json.toJSString]
  have key := fun net =>
    (invokeProvider_loaded host env r r1 cfg sec (.hostFn id) hload hsec hw net r2).trans
      (providerStep_hostFn host id (sec.own "mnemonic") (sec.own "projectId") p net r2 hstr)
  refine ⟨?_, ?_, ?_, ?_⟩
  · rw [key .mainnet, ← hm1]; rfl
  · rw [key .rink_e_by, ← hm1]; rfl
  · rfl
  · rfl

/-- On the sample sources both factories construct with the sample mnemonic and their own endpoint. -/
theorem provider_constructs_with_mnemonic_and_url_witness :
    invokeProvider sampleHost (configOf sampleParams sampleSecrets (.hostFn 7)) .mainnet
        freshRealm =
      (sampleHost.construct 7
          [JSValue.ofBinding (some (.str "candy maple cake")),
           .json (.str ("https://mainnet.infura.io/v3/" ++ "abc123"))]
          freshRealm.constructions,
       { freshRealm with constructions := freshRealm.constructions ++
           [⟨7, [JSValue.ofBinding (some (.str "candy maple cake")),
                 .json (.str ("https://mainnet.infura.io/v3/" ++ "abc123"))]⟩] }) ∧
    invokeProvider sampleHost (configOf sampleParams sampleSecrets (.hostFn 7)) .rink_e_by
        freshRealm =
      (sampleHost.construct 7
          [JSValue.ofBinding (some (.str "candy maple cake")),
           .json (.str ("https://rinkeby.infura.io/v3/" ++ "abc123"))]
          freshRealm.constructions,
       { freshRealm with constructions := freshRealm.constructions ++
           [⟨7, [JSValue.ofBinding (some (.str "candy maple cake")),
                 .json (.str ("https://rinkeby.infura.io/v3/" ++ "abc123"))]⟩] }) ∧
    "https://mainnet.infura.io/v3/" ++ "abc123"
      = "https://" ++ "mainnet" ++ ".infura.io/v3/" ++ "abc123" ∧
    "https://rinkeby.infura.io/v3/" ++ "abc123"
      = "https://" ++ "rinkeby" ++ ".infura.io/v3/" ++ "abc123" :=
  provider_constructs_with_mnemonic_and_url sampleHost sampleEnv freshRealm
    { cache := some (configOf sampleParams sampleSecrets (.hostFn 7)),
      required := specifiers, constructions := [] }
    freshRealm _ sampleSecrets 7 "abc123" (some (.str "candy maple cake"))
    (by rfl) rfl (by rfl) (by rfl) rfl

/-- C3 (laziness): loading never calls the wallet-provider constructor, whatever
the three modules are.  For a secrets source that is an object (in particular
one lacking `mnemonic` or `projectId`), when the parameters source and the
wallet module load, loading succeeds, caches the exported object and yields the
full configuration: both factories (closed over the possibly missing
secrets), both chain identifiers and gas prices, the compiler and test-runner
options.  The constructor is reached only by invoking a factory: the
invocation calls it with the missing mnemonic as `undefined`, and whatever the
constructor throws for it is thrown then. -/
theorem load_is_lazy (host : Host) (env : ModuleEnv) (cc : Json) (W : JSValue)
    (props : List (String × Json)) (r : Realm)
    (hc : env.network_config = .ok cc) (hcn : cc ≠ .null)
    (hw : env.hdwallet_provider = .ok W) (hs : env.secrets = .ok (.obj props)) :
    (∀ (anyEnv : ModuleEnv) (r0 : Realm),
        (load anyEnv r0).2.constructions = r0.constructions) ∧
    ∃ cfg r1, load env r = (.ok cfg, r1) ∧ r1.cache = some cfg ∧
      r1.constructions = r.constructions ∧
      getPath cfg ["networks", "mainnet", "provider"]
        = .ok (.arrow .mainnet_provider W (lookup "mnemonic" props) (lookup "projectId" props)) ∧
      getPath cfg ["networks", "rink_e_by", "provider"]
        = .ok (.arrow .rink_e_by_provider W (lookup "mnemonic" props)
                (lookup "projectId" props)) ∧
      getPath cfg ["networks", "mainnet", "networkId"]
        = .ok (.json (.num (numericLiteral 1 0))) ∧
      getPath cfg ["networks", "rink_e_by", "networkId"]
        = .ok (.json (.num (numericLiteral 4 0))) ∧
      getPath cfg ["networks", "mainnet", "gasPrice"]
        = .ok (.json (.num (numericLiteral 140 9))) ∧
      getPath cfg ["networks", "rink_e_by", "gasPrice"]
        = .ok (.json (.num (numericLiteral 10 9))) ∧
      getPath cfg ["networks", "ganacheUnitTest"] = (JSValue.json cc).get "ganacheUnitTest" ∧
      getPath cfg ["networks", "gethUnitTest"] = (JSValue.json cc).get "gethUnitTest" ∧
      getPath cfg ["networks", "testrpcCoverage"] = (JSValue.json cc).get "testrpcCoverage" ∧
      getPath cfg ["compilers", "solc", "version"] = .ok (.json (.str "0.6.6")) ∧
      getPath cfg ["compilers", "solc", "settings", "optimizer", "enabled"]
        = .ok (.json (.bool false)) ∧
      getPath cfg ["mocha", "enableTimeouts"] = .ok (.json (.bool false)) ∧
      ∀ (id : Nat) (url : String) (net : Remote) (r2 : Realm), W = .hostFn id →
        bindingToString host (lookup "projectId" props) = .ok url →
        invokeProvider host cfg net r2 =
          (host.construct id
              [JSValue.ofBinding (lookup "mnemonic" props), .json (.str (net.url url))]
              r2.constructions,
           { r2 with constructions := r2.constructions ++
               [⟨id, [JSValue.ofBinding (lookup "mnemonic" props),
                      .json (.str (net.url url))]⟩] }) := by
  refine ⟨load_constructions, _, _,
    load_ok env cc (.obj props) W r hc hs hw hcn (by simp), rfl, rfl, ?_⟩
  have hr := getPath_remote (cc.own "ganacheUnitTest") (cc.own "gethUnitTest")
    (cc.own "testrpcCoverage") W (lookup "mnemonic" props) (lookup "projectId" props)
  have hk := getPath_networks_key (cc.own "ganacheUnitTest") (cc.own "gethUnitTest")
    (cc.own "testrpcCoverage") W (lookup "mnemonic" props) (lookup "projectId" props)
  have ho := getPath_options (cc.own "ganacheUnitTest") (cc.own "gethUnitTest")
    (cc.own "testrpcCoverage") W (lookup "mnemonic" props) (lookup "projectId" props)
  have hget : ∀ key, (JSValue.json cc).get key = .ok (JSValue.ofBinding (cc.own key)) := by
    intro key
    simp [JSValue.get, Json.get_of_ne_null _ _ hcn, Except.map]
  refine ⟨hr.1, hr.2.1, hr.2.2.1, hr.2.2.2.1, hr.2.2.2.2.1, hr.2.2.2.2.2, ?_, ?_, ?_,
    ho.1, ho.2.1, ho.2.2, ?_⟩
  · rw [hget]; exact hk.1
  · rw [hget]; exact hk.2.1
  · rw [hget]; exact hk.2.2
  · intro id url net r2 hW hurl
    subst hW
    exact (invokeProvider_config host _ _ _ _ _ _ net r2).trans
      (providerStep_hostFn host id _ _ url net r2 hurl)

/-- A secrets source without `mnemonic` loads to the full configuration; the factories then pass `undefined`. -/
theorem load_is_lazy_witness :
    (∀ (anyEnv : ModuleEnv) (r0 : Realm),
        (load anyEnv r0).2.constructions = r0.constructions) ∧
    ∃ cfg r1,
      load { sampleEnv with secrets := .ok secretsWithoutMnemonic } freshRealm = (.ok cfg, r1) ∧
      r1.cache = some cfg ∧ r1.constructions = freshRealm.constructions ∧
      getPath cfg ["networks", "mainnet", "provider"]
        = .ok (.arrow .mainnet_provider (.hostFn 7) none (some (.str "abc123"))) ∧
      getPath cfg ["networks", "rink_e_by", "provider"]
        = .ok (.arrow .rink_e_by_provider (.hostFn 7) none (some (.str "abc123"))) ∧
      getPath cfg ["networks", "mainnet", "networkId"]
        = .ok (.json (.num (numericLiteral 1 0))) ∧
      getPath cfg ["networks", "rink_e_by", "networkId"]
        = .ok (.json (.num (numericLiteral 4 0))) ∧
      getPath cfg ["networks", "mainnet", "gasPrice"]
        = .ok (.json (.num (numericLiteral 140 9))) ∧
      getPath cfg ["networks", "rink_e_by", "gasPrice"]
        = .ok (.json (.num (numericLiteral 10 9))) ∧
      getPath cfg ["networks", "ganacheUnitTest"]
        = (JSValue.json sampleParams).get "ganacheUnitTest" ∧
      getPath cfg ["networks", "gethUnitTest"] = (JSValue.json sampleParams).get "gethUnitTest" ∧
      getPath cfg ["networks", "testrpcCoverage"]
        = (JSValue.json sampleParams).get "testrpcCoverage" ∧
      getPath cfg ["compilers", "solc", "version"] = .ok (.json (.str "0.6.6")) ∧
      getPath cfg ["compilers", "solc", "settings", "optimizer", "enabled"]
        = .ok (.json (.bool false)) ∧
      getPath cfg ["mocha", "enableTimeouts"] = .ok (.json (.bool false)) ∧
      ∀ (id : Nat) (url : String) (net : Remote) (r2 : Realm), JSValue.hostFn 7 = .hostFn id →
        bindingToString sampleHost (some (.str "abc123")) = .ok url →
        invokeProvider sampleHost cfg net r2 =
          (sampleHost.construct id [JSValue.undefined, .json (.str (net.url url))]
              r2.constructions,
           { r2 with constructions := r2.constructions ++
               [⟨id, [JSValue.undefined, .json (.str (net.url url))]⟩] }) :=
  load_is_lazy sampleHost { sampleEnv with secrets := .ok secretsWithoutMnemonic }
    sampleParams (.hostFn 7) [("projectId", .str "abc123")] freshRealm
    rfl (by simp [sampleParams]) rfl rfl

/-- C4: when the parameters source cannot be found or parsed, loading fails with
the loader's error for it; when the parameters source loads and the secrets
source cannot be found or parsed, loading fails with the loader's error for
the secrets source.  In both cases nothing is cached (no configuration object
is produced), no constructor is called, and each specifier was required once
and nothing after the failing one (the error is neither caught nor retried). -/
theorem load_fails_when_source_missing (env : ModuleEnv) (r : Realm) (e : JSError) :
    (env.network_config = .error e →
      load env r =
        (.error e,
         { r with required :=
             r.required ++ ["frg-ethereum-runners/config/network_config.json"] })) ∧
    (env.secrets = .error e → (∃ cc, env.network_config = .ok cc) →
      load env r =
        (.error e,
         { r with required :=
             r.required ++
               ["frg-ethereum-runners/config/network_config.json", "./secrets.json"] })) ∧
    (env.network_config = .error e ∨ env.secrets = .error e →
      ∃ err r1, load env r = (.error err, r1) ∧
        (env.network_config = .error err ∨ env.secrets = .error err) ∧
        r1.cache = r.cache ∧ r1.constructions = r.constructions) := by
  have h0 : ∀ err, env.network_config = .error err →
      load env r = (.error err, { r with required :=
        r.required ++ ["frg-ethereum-runners/config/network_config.json"] }) := by
    intro err h
    simp [load, truffle_js, JS.bind, require, h]
  have h1 := h0 e
  have h2 : ∀ err, env.secrets = .error err → (∃ cc, env.network_config = .ok cc) →
      load env r = (.error err, { r with required := r.required ++
        ["frg-ethereum-runners/config/network_config.json", "./secrets.json"] }) := by
    intro err h ⟨cc, hc⟩
    simp [load, truffle_js, JS.bind, require, h, hc]
  refine ⟨h1, h2 e, ?_⟩
  intro h
  rcases hc : env.network_config with e1 | cc
  · exact ⟨e1, _, h0 e1 hc, Or.inl rfl, rfl, rfl⟩
  · rcases h with h | h
    · rw [hc] at h; cases h
    · exact ⟨e, _, h2 e h ⟨cc, hc⟩, Or.inr h, rfl, rfl⟩

/-- A missing parameters source, and a missing secrets source, each make the load fail with the loader error. -/
theorem load_fails_when_source_missing_witness :
    load { sampleEnv with network_config := .error moduleNotFound } freshRealm =
      (.error moduleNotFound,
       { freshRealm with required :=
           freshRealm.required ++ ["frg-ethereum-runners/config/network_config.json"] }) ∧
    load { sampleEnv with secrets := .error moduleNotFound } freshRealm =
      (.error moduleNotFound,
       { freshRealm with required :=
           freshRealm.required ++
             ["frg-ethereum-runners/config/network_config.json", "./secrets.json"] }) :=
  ⟨(load_fails_when_source_missing { sampleEnv with network_config := .error moduleNotFound }
      freshRealm moduleNotFound).1 rfl,
   (load_fails_when_source_missing { sampleEnv with secrets := .error moduleNotFound }
      freshRealm moduleNotFound).2.1 rfl ⟨sampleParams, rfl⟩⟩

/-- C5, as the code has it: no validation happens at load.  For every parsed
parameters source and secrets source, with a wallet module that loads:
loading throws a TypeError and caches nothing when either source is JSON
`null`, and succeeds otherwise, also with an empty projectId or mnemonic and
with a parameters source lacking pass-through names.  A pass-through name the
parameters source lacks is exported as `undefined` under that name.  When a
factory is later invoked it evaluates `new` on the export of the wallet module
with the mnemonic unchanged, whatever it is, and the endpoint ending in the
string form of the projectId; a string projectId (empty included) is appended
unchanged, and with a constructor as export that is one constructor call.  A
projectId that is an object with an own `toString` property has no string form:
the invocation throws a TypeError and the constructor is not called. -/
theorem load_without_validation (host : Host) (env : ModuleEnv) (cc sec : Json) (W : JSValue)
    (r : Realm) (hc : env.network_config = .ok cc) (hs : env.secrets = .ok sec)
    (hw : env.hdwallet_provider = .ok W) :
    (cc = .null ∨ sec = .null →
      (load env r).1 = .error .typeError ∧ (load env r).2.cache = r.cache ∧
      (load env r).2.constructions = r.constructions) ∧
    (cc ≠ .null → sec ≠ .null →
      ∃ cfg r1, load env r = (.ok cfg, r1) ∧
        (∀ name ∈ ["ganacheUnitTest", "gethUnitTest", "testrpcCoverage"],
          cc.get name = .ok none → getPath cfg ["networks", name] = .ok .undefined) ∧
        ∀ (m p : Option Json) (net : Remote) (r2 : Realm),
          sec.get "mnemonic" = .ok m → sec.get "projectId" = .ok p →
          (∀ url, bindingToString host p = .ok url →
            invokeProvider host cfg net r2 =
              jsNew host W [JSValue.ofBinding m, .json (.str (net.url url))] r2) ∧
          (∀ s, p = some (.str s) →
            invokeProvider host cfg net r2 =
              jsNew host W [JSValue.ofBinding m, .json (.str (net.url s))] r2) ∧
          (∀ id s, W = .hostFn id → p = some (.str s) →
            invokeProvider host cfg net r2 =
              (host.construct id [JSValue.ofBinding m, .json (.str (net.url s))]
                  r2.constructions,
               { r2 with constructions := r2.constructions ++
                   [⟨id, [JSValue.ofBinding m, .json (.str (net.url s))]⟩] })) ∧
          (∀ props, p = some (.obj props) → (lookup "toString" props).isSome →
            invokeProvider host cfg net r2 = (.error .typeError, r2))) := by
  constructor
  · intro hnull
    have h := load_null env cc sec W r hc hs hw hnull
    exact ⟨h.1, h.2, load_constructions env r⟩
  · intro hcn hsn
    refine ⟨_, _, load_ok env cc sec W r hc hs hw hcn hsn, ?_, ?_⟩
    · intro name hname hnone
      have hown : cc.own name = none := ((Json.get_ok_iff _ _ _).1 hnone).2.symm
      have hk := getPath_networks_key (cc.own "ganacheUnitTest") (cc.own "gethUnitTest")
        (cc.own "testrpcCoverage") W (sec.own "mnemonic") (sec.own "projectId")
      simp only [List.mem_cons, List.mem_singleton, List.not_mem_nil, or_false] at hname
      rcases hname with h | h | h <;> subst h
      · rw [configOf, hk.1, hown]; rfl
      · rw [configOf, hk.2.1, hown]; rfl
      · rw [configOf, hk.2.2, hown]; rfl
    · intro m p net r2 hm hp
      have hm1 := ((Json.get_ok_iff _ _ _).1 hm).2
      have hp1 := ((Json.get_ok_iff _ _ _).1 hp).2
      subst hm1 hp1
      have hinv : invokeProvider host (configOf cc sec W) net r2 =
          providerStep host W (sec.own "mnemonic") (sec.own "projectId") net r2 := by
        rw [configOf, invokeProvider_config]
      have hurl : ∀ url, bindingToString host (sec.own "projectId") = .ok url →
          invokeProvider host (configOf cc sec W) net r2 =
            jsNew host W [JSValue.ofBinding (sec.own "mnemonic"),
              .json (.str (net.url url))] r2 := by
        intro url h
        rw [hinv, providerStep_ok host W _ _ url net r2 h]
      have hstr : ∀ s, sec.own "projectId" = some (.str s) →
          bindingToString host (sec.own "projectId") = .ok s := by
        intro s h
        rw [h]
        exact (bindingToString_primitive host).2.2.2.2.2 s
      refine ⟨hurl, fun s h => hurl s (hstr s h), ?_, ?_⟩
      · intro id s hW h
        subst hW
        rw [hinv, providerStep_hostFn host id _ _ s net r2 (hstr s h)]
      · intro props h hts
        rw [hinv]
        apply providerStep_error
        rw [h]
        exact bindingToString_object host props hts

/-- An empty parameters object and empty secrets strings load; the three
descriptors are `undefined`, and a factory constructs with the empty mnemonic
and the bare endpoint. -/
theorem load_without_validation_witness :
    ∃ cfg r1,
      load (ModuleEnv.mk (.ok (.obj []))
              (.ok (.obj [("projectId", .str ""), ("mnemonic", .str "")])) (.ok (.hostFn 7)))
          freshRealm = (.ok cfg, r1) ∧
      (∀ name ∈ ["ganacheUnitTest", "gethUnitTest", "testrpcCoverage"],
        (Json.obj []).get name = .ok none → getPath cfg ["networks", name] = .ok .undefined) ∧
      invokeProvider sampleHost cfg .mainnet r1 =
        (sampleHost.construct 7
            [JSValue.ofBinding (some (.str "")), .json (.str (Remote.mainnet.url ""))]
            r1.constructions,
         { r1 with constructions := r1.constructions ++
             [⟨7, [JSValue.ofBinding (some (.str "")),
                   .json (.str (Remote.mainnet.url ""))]⟩] }) := by
  obtain ⟨cfg, r1, hload, hmissing, hinvoke⟩ :=
    (load_without_validation sampleHost
      (ModuleEnv.mk (.ok (.obj []))
        (.ok (.obj [("projectId", .str ""), ("mnemonic", .str "")])) (.ok (.hostFn 7)))
      (.obj []) (.obj [("projectId", .str ""), ("mnemonic", .str "")]) (.hostFn 7) freshRealm
      rfl rfl rfl).2 (by simp) (by simp)
  exact ⟨cfg, r1, hload, hmissing,
    (hinvoke (some (.str "")) (some (.str "")) .mainnet r1 (by rfl) (by rfl)).2.2.1 7 "" rfl rfl⟩

/-- C5 fails as stated: a parameters source, or a secrets source, that parses to
JSON `null` is successfully parsed, yet loading throws a TypeError (reading
`connectionConfig.ganacheUnitTest`, respectively destructuring the secrets).
And a malformed secret is not always passed on: with a projectId that is an
object with an own `toString` property the module loads, and the factory
throws a TypeError without calling the constructor. -/
theorem load_throws_on_null_source :
    load { sampleEnv with network_config := .ok .null } freshRealm =
      (.error .typeError, { freshRealm with required := specifiers }) ∧
    load { sampleEnv with secrets := .ok .null } freshRealm =
      (.error .typeError,
       { freshRealm with required :=
           ["frg-ethereum-runners/config/network_config.json", "./secrets.json"] }) ∧
    ∃ cfg r1,
      load { sampleEnv with secrets := .ok malformedSecrets } freshRealm = (.ok cfg, r1) ∧
      invokeProvider sampleHost cfg .rink_e_by r1 = (.error .typeError, r1) ∧
      r1.constructions = [] :=
  ⟨by rfl, by rfl, _, _, by rfl, by rfl, by rfl⟩

/-- C6: whenever the module loads, `networks.mainnet.networkId` is the number 1
and `networks.rink_e_by.networkId` is the number 4, two distinct integers; and
the descriptor holding 1 holds the factory that constructs with the mainnet
endpoint, the descriptor holding 4 the factory that constructs with the
rinkeby endpoint. -/
theorem networkId_values (env : ModuleEnv) (r r1 : Realm) (cfg : JSValue)
    (hload : load env r = (.ok cfg, r1)) :
    getPath cfg ["networks", "mainnet", "networkId"] = .ok (.json (.num (.finite 1))) ∧
    getPath cfg ["networks", "rink_e_by", "networkId"] = .ok (.json (.num (.finite 4))) ∧
    JSNumber.finite 1 ≠ JSNumber.finite 4 ∧
    ∃ mainnet rink_e_by, getPath cfg ["networks", "mainnet"] = .ok mainnet ∧
      getPath cfg ["networks", "rink_e_by"] = .ok rink_e_by ∧
      mainnet.get "networkId" = .ok (.json (.num (.finite 1))) ∧
      rink_e_by.get "networkId" = .ok (.json (.num (.finite 4))) ∧
      ∀ (host : Host) (id : Nat) (sec : Json) (p : String) (r2 : Realm),
        env.hdwallet_provider = .ok (.hostFn id) → env.secrets = .ok sec →
        sec.get "projectId" = .ok (some (.str p)) →
        (∃ f m, mainnet.get "provider" = .ok f ∧
          (callFunction host f r2).2.constructions = r2.constructions ++
            [⟨id, [m, .json (.str ("https://mainnet.infura.io/v3/" ++ p))]⟩]) ∧
        (∃ f m, rink_e_by.get "provider" = .ok f ∧
          (callFunction host f r2).2.constructions = r2.constructions ++
            [⟨id, [m, .json (.str ("https://rinkeby.infura.io/v3/" ++ p))]⟩]) := by
  obtain ⟨cc, s, W, -, hs, hw, -, -, hcfg, -⟩ := load_inv env r r1 cfg hload
  subst hcfg
  have hr := getPath_remote (cc.own "ganacheUnitTest") (cc.own "gethUnitTest")
    (cc.own "testrpcCoverage") W (s.own "mnemonic") (s.own "projectId")
  have hv := numericLiteral_values
  rw [hv.1, hv.2.1] at hr
  refine ⟨hr.2.2.1, hr.2.2.2.1, by simp, ?_⟩
  refine ⟨_, _, by simp [getPath, JSValue.get, lookup, configOf, configObject, objectLiteral]; rfl,
    by simp [getPath, JSValue.get, lookup, configOf, configObject, objectLiteral]; rfl, ?_, ?_, ?_⟩
  · simp [JSValue.get, lookup, hv.1]
  · simp [JSValue.get, lookup, hv.2.1]
  · intro host id sec p r2 hwid hsec hp
    rw [hs] at hsec
    rw [hw] at hwid
    cases hsec
    cases hwid
    have hp1 := ((Json.get_ok_iff _ _ _).1 hp).2
    have hstr : bindingToString host (s.own "projectId") = .ok p := by
      rw [← hp1]; simp [bindingToString, Json.toJSString]
    constructor
    · refine ⟨_, JSValue.ofBinding (s.own "mnemonic"), by simp [JSValue.get, lookup]; rfl, ?_⟩
      simp [callFunction, mainnet_provider, JS.bind, JS.lift, hstr, jsNew]
    · refine ⟨_, JSValue.ofBinding (s.own "mnemonic"), by simp [JSValue.get, lookup]; rfl, ?_⟩
      simp [callFunction, rink_e_by_provider, JS.bind, JS.lift, hstr, jsNew]

/-- The chain identifiers of the configuration loaded from the sample sources. -/
theorem networkId_values_witness :
    getPath (configOf sampleParams sampleSecrets (.hostFn 7)) ["networks", "mainnet", "networkId"]
      = .ok (.json (.num (.finite 1))) ∧
    getPath (configOf sampleParams sampleSecrets (.hostFn 7))
      ["networks", "rink_e_by", "networkId"] = .ok (.json (.num (.finite 4))) :=
  ⟨(networkId_values sampleEnv freshRealm _ _ (load_ok sampleEnv sampleParams sampleSecrets
      (.hostFn 7) freshRealm rfl rfl rfl (by simp [sampleParams]) (by simp [sampleSecrets]))).1,
   (networkId_values sampleEnv freshRealm _ _ (load_ok sampleEnv sampleParams sampleSecrets
      (.hostFn 7) freshRealm rfl rfl rfl (by simp [sampleParams]) (by simp [sampleSecrets]))).2.1⟩

/-- C7: whenever the module loads, `networks.mainnet.gasPrice` is exactly
140000000000 and `networks.rink_e_by.gasPrice` is exactly 10000000000.  The
literals `140e9` and `10e9` denote these whole numbers, both positive and
below 2^53, and every whole number below 2^53 is its own nearest double, so
the two Numbers are these integers exactly. -/
theorem gasPrice_values (env : ModuleEnv) (r r1 : Realm) (cfg : JSValue)
    (hload : load env r = (.ok cfg, r1)) :
    getPath cfg ["networks", "mainnet", "gasPrice"]
      = .ok (.json (.num (.finite 140000000000))) ∧
    getPath cfg ["networks", "rink_e_by", "gasPrice"]
      = .ok (.json (.num (.finite 10000000000))) ∧
    literalMV 140 9 = 140000000000 ∧ literalMV 10 9 = 10000000000 ∧
    0 < literalMV 140 9 ∧ literalMV 140 9 < 2 ^ 53 ∧
    0 < literalMV 10 9 ∧ literalMV 10 9 < 2 ^ 53 ∧
    numericLiteral 140 9 = .finite (literalMV 140 9 : ℚ) ∧
    numericLiteral 10 9 = .finite (literalMV 10 9 : ℚ) ∧
    ∀ n : Nat, n < 2 ^ 53 → roundToDouble n = .finite (n : ℚ) := by
  obtain ⟨cc, s, W, -, -, -, -, -, hcfg, -⟩ := load_inv env r r1 cfg hload
  subst hcfg
  have hr := getPath_remote (cc.own "ganacheUnitTest") (cc.own "gethUnitTest")
    (cc.own "testrpcCoverage") W (s.own "mnemonic") (s.own "projectId")
  have hv := numericLiteral_values
  rw [hv.2.2.1, hv.2.2.2] at hr
  refine ⟨hr.2.2.2.2.1, hr.2.2.2.2.2, by decide, by decide, by decide, by decide, by decide,
    by decide, ?_, ?_, roundToDouble_exact⟩
  · exact roundToDouble_exact _ (by decide)
  · exact roundToDouble_exact _ (by decide)

/-- The gas prices of the configuration loaded from the sample sources. -/
theorem gasPrice_values_witness :
    getPath (configOf sampleParams sampleSecrets (.hostFn 7)) ["networks", "mainnet", "gasPrice"]
      = .ok (.json (.num (.finite 140000000000))) ∧
    getPath (configOf sampleParams sampleSecrets (.hostFn 7))
      ["networks", "rink_e_by", "gasPrice"] = .ok (.json (.num (.finite 10000000000))) :=
  ⟨(gasPrice_values sampleEnv freshRealm _ _ (load_ok sampleEnv sampleParams sampleSecrets
      (.hostFn 7) freshRealm rfl rfl rfl (by simp [sampleParams]) (by simp [sampleSecrets]))).1,
   (gasPrice_values sampleEnv freshRealm _ _ (load_ok sampleEnv sampleParams sampleSecrets
      (.hostFn 7) freshRealm rfl rfl rfl (by simp [sampleParams]) (by simp [sampleSecrets]))).2.1⟩

/-- C8: whenever the module loads, whatever the parameters and secrets sources
are, `compilers.solc.version` is the string '0.6.6',
`compilers.solc.settings.optimizer.enabled` is `false` and
`mocha.enableTimeouts` is `false`. -/
theorem toolchain_options_constant (env : ModuleEnv) (r r1 : Realm) (cfg : JSValue)
    (hload : load env r = (.ok cfg, r1)) :
    getPath cfg ["compilers", "solc", "version"] = .ok (.json (.str "0.6.6")) ∧
    getPath cfg ["compilers", "solc", "settings", "optimizer", "enabled"]
      = .ok (.json (.bool false)) ∧
    getPath cfg ["mocha", "enableTimeouts"] = .ok (.json (.bool false)) := by
  obtain ⟨cc, s, W, -, -, -, -, -, hcfg, -⟩ := load_inv env r r1 cfg hload
  subst hcfg
  exact getPath_options _ _ _ W _ _

/-- The toolchain options of the configuration loaded from the sample sources. -/
theorem toolchain_options_constant_witness :
    getPath (configOf sampleParams sampleSecrets (.hostFn 7)) ["compilers", "solc", "version"]
      = .ok (.json (.str "0.6.6")) ∧
    getPath (configOf sampleParams sampleSecrets (.hostFn 7))
      ["compilers", "solc", "settings", "optimizer", "enabled"] = .ok (.json (.bool false)) ∧
    getPath (configOf sampleParams sampleSecrets (.hostFn 7)) ["mocha", "enableTimeouts"]
      = .ok (.json (.bool false)) :=
  toolchain_options_constant sampleEnv freshRealm _ _
    (load_ok sampleEnv sampleParams sampleSecrets (.hostFn 7) freshRealm rfl rfl rfl
      (by simp [sampleParams]) (by simp [sampleSecrets]))

/-- C9, as the code has it: no operation this file provides changes the exported
object: after a load, invoking `networks.mainnet.provider()` and
`networks.rink_e_by.provider()` any number of times in any order leaves the
cached configuration (networks, compilers, mocha and the factories
themselves) equal to its value at load.  The file does not freeze the object:
it is an ordinary unfrozen object, and an assignment by a consumer to any of
its three fields takes effect. -/
theorem config_unchanged_by_invocations (host : Host) (env : ModuleEnv) (r r1 : Realm)
    (cfg : JSValue) (nets : List Remote) (hload : load env r = (.ok cfg, r1)) :
    (invokeAll host nets r1).cache = some cfg ∧
    (∃ props, cfg = .object false props) ∧
    ∀ key ∈ ["networks", "compilers", "mocha"], ∀ v : JSValue,
      (cfg.assign key v).get key = .ok v := by
  obtain ⟨cc, s, W, -, -, -, -, -, hcfg, hr1⟩ := load_inv env r r1 cfg hload
  refine ⟨?_, ?_, ?_⟩
  · rw [(invokeAll_frame host nets r1).1, hr1]
  · exact ⟨_, hcfg⟩
  · intro key hkey v
    subst hcfg
    simp only [List.mem_cons, List.mem_singleton, List.not_mem_nil, or_false] at hkey
    rcases hkey with h | h | h <;> subst h <;>
      simp [configOf, configObject, objectLiteral, JSValue.assign, JSValue.get, lookup]

/-- Three invocations after loading the sample sources leave the cached configuration as loaded. -/
theorem config_unchanged_by_invocations_witness :
    (invokeAll sampleHost [.mainnet, .rink_e_by, .mainnet]
        { cache := some (configOf sampleParams sampleSecrets (.hostFn 7)),
          required := specifiers, constructions := [] }).cache
      = some (configOf sampleParams sampleSecrets (.hostFn 7)) :=
  (config_unchanged_by_invocations sampleHost sampleEnv freshRealm
    { cache := some (configOf sampleParams sampleSecrets (.hostFn 7)),
      required := specifiers, constructions := [] }
    _ [.mainnet, .rink_e_by, .mainnet] (by rfl)).1

/-- C9 fails as stated: the exported object can be mutated after export.  On the
configuration loaded from the sample sources, the consumer assignment
`config.mocha = null` replaces the field: `mocha.enableTimeouts` was `false`,
and afterwards `mocha` is `null`. -/
theorem exported_object_is_mutable :
    ∃ cfg r1, load sampleEnv freshRealm = (.ok cfg, r1) ∧
      getPath cfg ["mocha", "enableTimeouts"] = .ok (.json (.bool false)) ∧
      getPath (cfg.assign "mocha" (.json .null)) ["mocha"] = .ok (.json .null) ∧
      cfg.assign "mocha" (.json .null) ≠ cfg := by
  refine ⟨_, _, load_ok sampleEnv sampleParams sampleSecrets (.hostFn 7) freshRealm rfl rfl rfl
    (by simp [sampleParams]) (by simp [sampleSecrets]), ?_, ?_, ?_⟩
  · exact (getPath_options _ _ _ _ _ _).2.2
  · simp [configOf, configObject, objectLiteral, JSValue.assign, JSValue.get, lookup, getPath]
  · simp [configOf, configObject, objectLiteral, JSValue.assign, lookup]

/-- C10, as the code has it: the factories are not memoised.  With a constructor
as the export of the wallet module, whenever the projectId has a string form
every invocation of a factory performs exactly one new constructor call, so
any sequence of invocations appends one construction per invocation, in order,
and `n` invocations of one factory append `n` constructions with identical
arguments: the mnemonic and the endpoint built from the projectId, which
depend on the secrets source and the factory only, not on the parameters
source, on the constructions made before, or on invocations of the other
factory in between.  A missing projectId and a projectId that is `null`, a
boolean, a number or a string all have a string form.  When the projectId has
none, the conversion throws a TypeError (as it does for every object with an
own `toString` property) and every invocation throws it before any constructor
call, leaving the realm as it was. -/
theorem factories_not_memoised (host : Host) (env : ModuleEnv) (r r1 r2 : Realm)
    (cfg : JSValue) (sec : Json) (id : Nat) (m p : Option Json) (nets : List Remote)
    (hload : load env r = (.ok cfg, r1)) (hsec : env.secrets = .ok sec)
    (hw : env.hdwallet_provider = .ok (.hostFn id))
    (hm : sec.get "mnemonic" = .ok m) (hp : sec.get "projectId" = .ok p)
    (hcache : r2.cache = some cfg) :
    (∀ url, bindingToString host p = .ok url →
      (∀ net : Remote, (invokeProvider host cfg net r2).2.constructions =
          r2.constructions ++ [⟨id, [JSValue.ofBinding m, .json (.str (net.url url))]⟩]) ∧
      (invokeAll host nets r2).constructions =
          r2.constructions ++ nets.map (fun net =>
            (⟨id, [JSValue.ofBinding m, .json (.str (net.url url))]⟩ : ConstructCall)) ∧
      ∀ (n : Nat) (net : Remote),
        (invokeAll host (List.replicate n net) r2).constructions =
          r2.constructions ++
            List.replicate n ⟨id, [JSValue.ofBinding m, .json (.str (net.url url))]⟩) ∧
    (p = none → bindingToString host p = .ok "undefined") ∧
    (p = some .null → bindingToString host p = .ok "null") ∧
    (∀ b : Bool, p = some (.bool b) →
      bindingToString host p = .ok (if b then "true" else "false")) ∧
    (∀ n, p = some (.num n) → bindingToString host p = .ok (host.numberToString n)) ∧
    (∀ s, p = some (.str s) → bindingToString host p = .ok s) ∧
    (∀ props, p = some (.obj props) → (lookup "toString" props).isSome →
      bindingToString host p = .error .typeError) ∧
    (∀ e, bindingToString host p = .error e →
      e = .typeError ∧
      (∀ net : Remote, invokeProvider host cfg net r2 = (.error .typeError, r2)) ∧
      invokeAll host nets r2 = r2) := by
  have hm1 := ((Json.get_ok_iff _ _ _).1 hm).2
  have hp1 := ((Json.get_ok_iff _ _ _).1 hp).2
  subst hm1 hp1
  have hcfg := fun net r3 =>
    invokeProvider_loaded host env r r1 cfg sec (.hostFn id) hload hsec hw net r3
  have hprim := bindingToString_primitive host
  refine ⟨?_, ?_, ?_, ?_, ?_, ?_, ?_, ?_⟩
  · intro url hurl
    have hall := fun nets =>
      invokeAll_constructions host cfg id (sec.own "mnemonic") (sec.own "projectId") url hurl
        hcfg nets r2 hcache
    refine ⟨?_, hall nets, ?_⟩
    · intro net
      rw [hcfg net r2, providerStep_hostFn host id _ _ url net r2 hurl]
    · intro n net
      rw [hall, List.map_replicate]
  · intro h; rw [h]; exact hprim.1
  · intro h; rw [h]; exact hprim.2.1
  · intro b h
    rw [h]
    cases b
    · exact hprim.2.2.2.1
    · exact hprim.2.2.1
  · intro n h; rw [h]; exact hprim.2.2.2.2.1 n
  · intro s h; rw [h]; exact hprim.2.2.2.2.2 s
  · intro props h hts; rw [h]; exact bindingToString_object host props hts
  · intro e he
    have hte := bindingToString_error host _ e he
    subst hte
    have hthrow : ∀ net r3, invokeProvider host cfg net r3 = (.error .typeError, r3) :=
      fun net r3 => (hcfg net r3).trans (providerStep_error host _ _ _ _ net r3 he)
    exact ⟨rfl, fun net => hthrow net r2,
      invokeAll_of_throwing host cfg .typeError hthrow nets r2 hcache⟩

/-- On the sample sources three invocations append three constructions, one per invocation. -/
theorem factories_not_memoised_witness :
    (∀ net : Remote,
      (invokeProvider sampleHost (configOf sampleParams sampleSecrets (.hostFn 7)) net
          { cache := some (configOf sampleParams sampleSecrets (.hostFn 7)),
            required := specifiers, constructions := [] }).2.constructions =
        [] ++ [⟨7, [JSValue.ofBinding (some (.str "candy maple cake")),
                    .json (.str (net.url "abc123"))]⟩]) ∧
    (invokeAll sampleHost [.mainnet, .rink_e_by, .mainnet]
        { cache := some (configOf sampleParams sampleSecrets (.hostFn 7)),
          required := specifiers, constructions := [] }).constructions =
      [] ++ [Remote.mainnet, Remote.rink_e_by, Remote.mainnet].map (fun net =>
        (⟨7, [JSValue.ofBinding (some (.str "candy maple cake")),
              .json (.str (net.url "abc123"))]⟩ : ConstructCall)) ∧
    ∀ (n : Nat) (net : Remote),
      (invokeAll sampleHost (List.replicate n net)
          { cache := some (configOf sampleParams sampleSecrets (.hostFn 7)),
            required := specifiers, constructions := [] }).constructions =
        [] ++ List.replicate n
          ⟨7, [JSValue.ofBinding (some (.str "candy maple cake")),
               .json (.str (net.url "abc123"))]⟩ :=
  (factories_not_memoised sampleHost sampleEnv freshRealm
    { cache := some (configOf sampleParams sampleSecrets (.hostFn 7)),
      required := specifiers, constructions := [] }
    { cache := some (configOf sampleParams sampleSecrets (.hostFn 7)),
      required := specifiers, constructions := [] }
    _ sampleSecrets 7 (some (.str "candy maple cake")) (some (.str "abc123"))
    [.mainnet, .rink_e_by, .mainnet] (by rfl) rfl rfl (by rfl) (by rfl) rfl).1
    "abc123" (by rfl)

/-- C10 fails as stated: with a projectId that is an object with an own `toString`
property the module loads, but an invocation of a factory throws a TypeError
while building the endpoint and performs no constructor call at all; three
invocations yield no construction. -/
theorem factory_may_construct_nothing :
    ∃ cfg r1,
      load { sampleEnv with secrets := .ok secretsWithObjectProjectId } freshRealm
        = (.ok cfg, r1) ∧
      invokeProvider sampleHost cfg .mainnet r1 = (.error .typeError, r1) ∧
      invokeProvider sampleHost cfg .rink_e_by r1 = (.error .typeError, r1) ∧
      (invokeAll sampleHost [.mainnet, .mainnet, .rink_e_by] r1).constructions = [] :=
  ⟨_, _, by rfl, by rfl, by rfl, by rfl⟩

end Truffle
